import Mathlib

/-!
# linux-device-tools: the I2C control layer (`src/i2c/i2c.c`, `src/i2c/i2c.h`)

A shallow embedding of the seven functions of `i2c.c`.

* C `int` values are `Int`; `__u8` values are `Nat`.
* A C string buffer is a `List Char`; the terminator is `NUL`.
* The operating system is explicit state: every function takes the state
  before the call and returns the state after it next to its C result.
  The functions are written once over an arbitrary `OS`, and once more
  instantiated at `linux`, a descriptor-table model of the kernel.
* The SMBus helpers `i2c_smbus_*` come from `<linux/i2c-dev.h>`, the
  user-space header `i2c.h` includes; they are transcribed below.
-/

namespace I2C

/-! ## C library: `snprintf` -/

/-- The string terminator. -/
def NUL : Char := Char.ofNat 0

/-- Output of the conversion `%d`: decimal digits, most significant first,
a minus sign in front of a negative number. -/
def fmt_d : Int → List Char
  | Int.ofNat n => Nat.toDigits 10 n
  | Int.negSucc n => '-' :: Nat.toDigits 10 (n + 1)

/-- Full output of the format `"/dev/i2c-%d"`, before any size limit. -/
def fmt_dev_i2c (i2c_port : Int) : List Char :=
  "/dev/i2c-".toList ++ fmt_d i2c_port

/-- Result of one `snprintf` call: the array afterwards and the number of
bytes the call stored into it, terminator included. -/
structure Written where
  buf : List Char
  stored : Nat
deriving DecidableEq

/-- Library call `snprintf(buf, size, ...)` where `out` is the expanded
format: at most `size - 1` characters of `out` are stored, then `NUL`;
with `size = 0` nothing is stored. The bytes go to the front of `buf`;
when `stored` exceeds the length of `buf` the call wrote past its end. -/
def snprintf (buf : List Char) (size : Nat) (out : List Char) : Written :=
  if size = 0 then { buf := buf, stored := 0 }
  else
    let bytes := out.take (size - 1) ++ [NUL]
    { buf := bytes ++ buf.drop bytes.length, stored := bytes.length }

/-- The C string held by a buffer: the characters before the first `NUL`. -/
def cstr (buf : List Char) : List Char :=
  buf.takeWhile (fun c => c != NUL)

/-- A local `char x[n]`: its contents are indeterminate, here a filler
character that is not `NUL`. -/
def char_array (n : Nat) : List Char := List.replicate n '?'

/-! ## The operating system interface -/

/-- Constants of `<fcntl.h>`, `<errno.h>` and `<linux/i2c-dev.h>`. -/
def O_RDWR : Int := 2
def ENOENT : Int := 2
def ENXIO : Int := 6
def EBADF : Int := 9
def EINVAL : Int := 22
def EOPNOTSUPP : Int := 95
def I2C_SMBUS_WRITE : Nat := 0
def I2C_SMBUS_READ : Nat := 1
def I2C_SMBUS_BYTE_DATA : Nat := 2
def I2C_SMBUS_I2C_BLOCK_BROKEN : Nat := 6
def I2C_SMBUS_BLOCK_MAX : Nat := 32

/-- The bytes of `union i2c_smbus_data` that a transfer uses: the member
`byte` is the first one, `block` is the length followed by the data. -/
abbrev i2c_smbus_data := List Nat

/-- Member `byte` of the union. -/
def i2c_smbus_data.byte (d : i2c_smbus_data) : Nat := d.headD 0

/-- Argument of the `I2C_SMBUS` request: `struct i2c_smbus_ioctl_data`. -/
structure i2c_smbus_ioctl_data where
  read_write : Nat
  command : Nat
  size : Nat
  data : i2c_smbus_data
deriving DecidableEq

/-- The system calls `i2c.c` makes, over a state `σ` of the system.
Each returns the state after the call and the C return value;
`errno` reads the error indicator of a state. -/
structure OS (σ : Type) where
  sys_open : σ → List Char → Int → σ × Int
  sys_close : σ → Int → σ × Int
  ioctl_I2C_SLAVE : σ → Int → Int → σ × Int
  ioctl_I2C_SMBUS : σ → Int → i2c_smbus_ioctl_data → σ × Int × i2c_smbus_data
  errno : σ → Int

/-! ## `<linux/i2c-dev.h>`: the inline SMBus helpers -/

section helpers
variable {σ : Type}

/-- Helper `i2c_smbus_access` of `<linux/i2c-dev.h>` (the header is not
among the repository's sources): fills `struct i2c_smbus_ioctl_data` and
returns `ioctl(file, I2C_SMBUS, &args)`. -/
def i2c_smbus_access (os : OS σ) (s : σ) (file : Int) (read_write command size : Nat)
    (data : i2c_smbus_data) : σ × Int × i2c_smbus_data :=
  os.ioctl_I2C_SMBUS s file
    { read_write := read_write, command := command, size := size, data := data }

/-- Modelled from the spec: the helper `i2c_smbus_read_byte_data` that
`i2c_read` returns is an inline function of `<linux/i2c-dev.h>`, which is not
among the repository's sources. The spec has the read return "the byte value
(0–255) on success, or -1 if the underlying transaction fails"; that is the
header's body,
`if (i2c_smbus_access(file, I2C_SMBUS_READ, command, I2C_SMBUS_BYTE_DATA, &data)) return -1;
 else return 0x0FF & data.byte;` -/
def i2c_smbus_read_byte_data (os : OS σ) (s : σ) (file : Int) (command : Nat) : σ × Int :=
  match i2c_smbus_access os s file I2C_SMBUS_READ command I2C_SMBUS_BYTE_DATA [] with
  | (s1, r, data) => if r ≠ 0 then (s1, -1) else (s1, ((0x0FF &&& data.byte : Nat) : Int))

/-- Modelled from the spec: the helper `i2c_smbus_write_byte_data` that
`i2c_write_byte` returns is an inline function of `<linux/i2c-dev.h>`, which
is not among the repository's sources. The spec has it write "a single byte
to a register using the SMBus write byte data transaction"; the header's
body is `data.byte = value;` and then returns
`i2c_smbus_access(file, I2C_SMBUS_WRITE, command, I2C_SMBUS_BYTE_DATA, &data)`. -/
def i2c_smbus_write_byte_data (os : OS σ) (s : σ) (file : Int) (command value : Nat) :
    σ × Int :=
  match i2c_smbus_access os s file I2C_SMBUS_WRITE command I2C_SMBUS_BYTE_DATA [value] with
  | (s1, r, _) => (s1, r)

/-- Helper `i2c_smbus_write_i2c_block_data` of `<linux/i2c-dev.h>` (the
header is not among the repository's sources; this is its body):
`if (length > 32) length = 32;`
copies `values[0 .. length-1]` to `data.block[1 ..]`, sets `data.block[0] = length`
and returns `i2c_smbus_access(file, I2C_SMBUS_WRITE, command,
I2C_SMBUS_I2C_BLOCK_BROKEN, &data)`. `values` must hold `length` elements. -/
def i2c_smbus_write_i2c_block_data (os : OS σ) (s : σ) (file : Int) (command length : Nat)
    (values : List Nat) : σ × Int :=
  let length := if length > 32 then 32 else length
  let data : i2c_smbus_data := length :: values.take length
  match i2c_smbus_access os s file I2C_SMBUS_WRITE command I2C_SMBUS_I2C_BLOCK_BROKEN data with
  | (s1, r, _) => (s1, r)

end helpers

/-! ## `i2c.h` / `i2c.c` -/

/-- The controller record `i2c_ctl_t`. -/
structure i2c_ctl where
  port : Int
  port_fd : Int
  slave_address : Int
deriving DecidableEq

section code
variable {σ : Type}

/-- The array `filename` of `i2c_open` after
`snprintf(filename, 19, "/dev/i2c-%d", i2c_port)`, for any contents
`filename` had before. -/
def i2c_open_filename (filename : List Char) (i2c_port : Int) : Written :=
  snprintf filename 19 (fmt_dev_i2c i2c_port)

/-- Function `i2c_open` of `i2c.c`. -/
def i2c_open (os : OS σ) (s : σ) (i2c_port : Int) : σ × Int :=
  let filename := char_array 20
  let filename := (i2c_open_filename filename i2c_port).buf
  os.sys_open s (cstr filename) O_RDWR

/-- Function `i2c_close` of `i2c.c`. -/
def i2c_close (os : OS σ) (s : σ) (i2c_port : Int) : σ × Int :=
  os.sys_close s i2c_port

/-- Function `i2c_init` of `i2c.c`; returns the controller after the call too. -/
def i2c_init (os : OS σ) (s : σ) (i2c : i2c_ctl) : σ × i2c_ctl × Int :=
  match i2c_open os s i2c.port with
  | (s1, ret) => (s1, { i2c with port_fd := ret }, if ret < 0 then ret else 0)

/-- Function `i2c_release` of `i2c.c`; the controller is passed by pointer and
never written, so it is returned as it came. -/
def i2c_release (os : OS σ) (s : σ) (i2c : i2c_ctl) : σ × i2c_ctl × Int :=
  match i2c_close os s i2c.port_fd with
  | (s1, ret) => (s1, i2c, ret)

/-- Function `i2c_select_slave` of `i2c.c`. -/
def i2c_select_slave (os : OS σ) (s : σ) (i2c : i2c_ctl) : σ × Int :=
  match os.ioctl_I2C_SLAVE s i2c.port_fd i2c.slave_address with
  | (s1, r) => if r < 0 then (s1, - os.errno s1) else (s1, 0)

/-- Function `i2c_read` of `i2c.c`. -/
def i2c_read (os : OS σ) (s : σ) (i2c : i2c_ctl) (i2c_slave_register : Nat) : σ × Int :=
  i2c_smbus_read_byte_data os s i2c.port_fd i2c_slave_register

/-- Function `i2c_write` of `i2c.c`. -/
def i2c_write (os : OS σ) (s : σ) (i2c : i2c_ctl) (i2c_register : Nat) (buffer : List Nat)
    (len : Nat) : σ × Int :=
  i2c_smbus_write_i2c_block_data os s i2c.port_fd i2c_register len buffer

/-- Function `i2c_write_byte` of `i2c.c`. -/
def i2c_write_byte (os : OS σ) (s : σ) (i2c : i2c_ctl) (i2c_register : Nat) (data : Nat) :
    σ × Int :=
  i2c_smbus_write_byte_data os s i2c.port_fd i2c_register data

end code

/-! ## A model of the kernel: descriptor table and one I2C bus

`open` returns the lowest descriptor not in use and `close` frees it, as
POSIX requires. Every device node of the model is an I2C bus device of the
same bus, on which one slave answers. The `I2C_SMBUS` request returns 0
when the transfer was done and -1 with `errno` set when it was not
(Documentation/i2c/dev-interface, which `i2c.c` refers to: the
transactions return -1 on failure, the write transactions 0 on success). -/

/-- State of the kernel as the calling process sees it. -/
structure Kernel where
  /-- descriptors open in the process -/
  fds : List Nat
  /-- device nodes that exist and may be opened -/
  nodes : List (List Char)
  /-- slave address bound to a descriptor by `I2C_SLAVE` -/
  sel : List (Nat × Int)
  /-- transfer sizes the bus adapter implements -/
  funcs : List Nat
  /-- address of the slave wired to the bus -/
  slave : Int
  /-- registers of that slave, latest write first -/
  regs : List (Nat × Nat)
  /-- the error indicator -/
  errno : Int
deriving DecidableEq

/-- The lowest descriptor number not in the table. -/
def lowest_free (fds : List Nat) : Nat :=
  ((List.range (fds.length + 1)).find? (fun n => decide (n ∉ fds))).getD 0

/-- A C `int` names an open descriptor. -/
def live (k : Kernel) (fd : Int) : Prop := 0 ≤ fd ∧ fd.toNat ∈ k.fds

instance (k : Kernel) (fd : Int) : Decidable (live k fd) := by
  unfold live; infer_instance

/-- System call `open(path, flags)`. -/
def kernel_open (k : Kernel) (path : List Char) (_flags : Int) : Kernel × Int :=
  if path ∈ k.nodes then
    ({ k with fds := lowest_free k.fds :: k.fds }, (lowest_free k.fds : Int))
  else ({ k with errno := ENOENT }, -1)

/-- System call `close(fd)`. -/
def kernel_close (k : Kernel) (fd : Int) : Kernel × Int :=
  if live k fd then
    ({ k with fds := k.fds.filter (fun n => n ≠ fd.toNat),
              sel := k.sel.filter (fun e => e.1 ≠ fd.toNat) }, 0)
  else ({ k with errno := EBADF }, -1)

/-- System call `ioctl(fd, I2C_SLAVE, addr)`: binds a 7-bit address to the
descriptor; the device is not probed. -/
def kernel_ioctl_slave (k : Kernel) (fd : Int) (addr : Int) : Kernel × Int :=
  if ¬ live k fd then ({ k with errno := EBADF }, -1)
  else if addr < 0 ∨ 0x7f < addr then ({ k with errno := EINVAL }, -1)
  else ({ k with sel := (fd.toNat, addr) :: k.sel }, 0)

/-- Register `r` of the slave; a register never written reads 0. -/
def reg_get (regs : List (Nat × Nat)) (r : Nat) : Nat := (regs.lookup r).getD 0

/-- The slave stores a block at consecutive registers. -/
def reg_set_block (regs : List (Nat × Nat)) (r : Nat) : List Nat → List (Nat × Nat)
  | [] => regs
  | b :: bs => reg_set_block ((r % 256, b % 256) :: regs) (r + 1) bs

/-- The bus transfer of an accepted `I2C_SMBUS` request. -/
def kernel_transfer (k : Kernel) (args : i2c_smbus_ioctl_data) :
    Kernel × Int × i2c_smbus_data :=
  if args.read_write = I2C_SMBUS_READ ∧ args.size = I2C_SMBUS_BYTE_DATA then
    (k, 0, [reg_get k.regs (args.command % 256)])
  else if args.read_write = I2C_SMBUS_WRITE ∧ args.size = I2C_SMBUS_BYTE_DATA then
    ({ k with regs := (args.command % 256, args.data.byte % 256) :: k.regs }, 0, args.data)
  else if args.read_write = I2C_SMBUS_WRITE ∧ args.size = I2C_SMBUS_I2C_BLOCK_BROKEN
      ∧ args.data.byte ≤ I2C_SMBUS_BLOCK_MAX then
    ({ k with regs := reg_set_block k.regs args.command
                        (args.data.tail.take args.data.byte) }, 0, args.data)
  else ({ k with errno := EINVAL }, -1, args.data)

/-- System call `ioctl(fd, I2C_SMBUS, &args)`. -/
def kernel_ioctl_smbus (k : Kernel) (fd : Int) (args : i2c_smbus_ioctl_data) :
    Kernel × Int × i2c_smbus_data :=
  if ¬ live k fd then ({ k with errno := EBADF }, -1, args.data)
  else if args.size ∉ k.funcs then ({ k with errno := EOPNOTSUPP }, -1, args.data)
  else if k.sel.lookup fd.toNat ≠ some k.slave then ({ k with errno := ENXIO }, -1, args.data)
  else kernel_transfer k args

/-- The kernel model as an `OS`. -/
def linux : OS Kernel where
  sys_open := kernel_open
  sys_close := kernel_close
  ioctl_I2C_SLAVE := kernel_ioctl_slave
  ioctl_I2C_SMBUS := kernel_ioctl_smbus
  errno := Kernel.errno

/-! ## Sequences of calls on one controller -/

/-- The two calls that open and close the controller's handle. -/
inductive Call where
  | init
  | release
deriving DecidableEq

/-- The kernel together with one controller record. -/
structure Sys where
  kernel : Kernel
  ctl : i2c_ctl
deriving DecidableEq

/-- One call of `i2c_init` or `i2c_release` on the controller. -/
def step (s : Sys) : Call → Sys
  | Call.init => { kernel := (i2c_init linux s.kernel s.ctl).1,
                   ctl := (i2c_init linux s.kernel s.ctl).2.1 }
  | Call.release => { kernel := (i2c_release linux s.kernel s.ctl).1,
                      ctl := (i2c_release linux s.kernel s.ctl).2.1 }

/-- A sequence of calls, first call first. -/
def run (s : Sys) (calls : List Call) : Sys := calls.foldl step s

/-- The handle invariant of the controller, relative to `base`, the
descriptors that were open before the controller's first call: the stored
handle is not an open descriptor or names exactly one entry of the table,
and every open descriptor that is not one of `base` (so was opened through
the controller) is the stored handle. -/
def handle_invariant (base : List Nat) (s : Sys) : Prop :=
  (¬ live s.kernel s.ctl.port_fd ∨ s.kernel.fds.count s.ctl.port_fd.toNat = 1) ∧
  (∀ fd ∈ s.kernel.fds, fd ∉ base → (fd : Int) = s.ctl.port_fd)

instance (base : List Nat) (s : Sys) : Decidable (handle_invariant base s) := by
  unfold handle_invariant; infer_instance

/-- A starting point: a table without repeated descriptors and a controller
whose stored handle is not open. -/
def unopened (s : Sys) : Prop := s.kernel.fds.Nodup ∧ ¬ live s.kernel s.ctl.port_fd

instance (s : Sys) : Decidable (unopened s) := by
  unfold unopened; infer_instance

/-- The calling discipline of `i2c.h`: `i2c_init` is called only while the
stored handle is not an open descriptor (at the start, or after a release). -/
def disciplined : Sys → List Call → Bool
  | _, [] => true
  | s, Call.init :: cs => decide (¬ live s.kernel s.ctl.port_fd) && disciplined (step s Call.init) cs
  | s, Call.release :: cs => disciplined (step s Call.release) cs

/-- The inductive form of the handle invariant: no descriptor is listed
twice, the descriptors of `base` are all still open, every other open
descriptor is the stored handle, and an open stored handle is not one of
`base`. -/
def table_invariant (base : List Nat) (s : Sys) : Prop :=
  s.kernel.fds.Nodup ∧ (∀ fd ∈ base, fd ∈ s.kernel.fds) ∧
  (∀ fd ∈ s.kernel.fds, fd ∉ base → (fd : Int) = s.ctl.port_fd) ∧
  (live s.kernel s.ctl.port_fd → s.ctl.port_fd.toNat ∉ base)

/-- A kernel with the three standard descriptors open, two bus nodes, and
an adapter that implements byte-data and I2C-block transfers to a slave at
address 0x68. -/
def kernel0 : Kernel :=
  { fds := [0, 1, 2], nodes := ["/dev/i2c-1".toList, "/dev/i2c-2".toList], sel := [],
    funcs := [I2C_SMBUS_BYTE_DATA, I2C_SMBUS_I2C_BLOCK_BROKEN], slave := 0x68, regs := [],
    errno := 0 }

/-- A controller for bus 1 and the slave at 0x68, not yet opened. -/
def ctl0 : i2c_ctl := { port := 1, port_fd := -1, slave_address := 0x68 }

/-! ## Scenarios used below -/

/-- The controller `ctl0` after `i2c_init` on `kernel0`. -/
def after_init : Kernel × i2c_ctl × Int := i2c_init linux kernel0 ctl0

/-- Then `i2c_select_slave`. -/
def after_select : Kernel × Int := i2c_select_slave linux after_init.1 after_init.2.1

/-- Or else `i2c_release` right after `i2c_init`. -/
def after_release : Kernel × i2c_ctl × Int := i2c_release linux after_init.1 after_init.2.1

/-- After the release, another part of the program opens bus 2. -/
def after_other_open : Kernel × Int := kernel_open after_release.1 "/dev/i2c-2".toList O_RDWR

/-- As `kernel0`, but the adapter implements SMBus byte-data transfers only. -/
def kernel_byte_only : Kernel := { kernel0 with funcs := [I2C_SMBUS_BYTE_DATA] }

/-- Controller `ctl0` opened and its slave selected on `kernel_byte_only`. -/
def byte_only_selected : Kernel × Int :=
  i2c_select_slave linux (i2c_init linux kernel_byte_only ctl0).1
    (i2c_init linux kernel_byte_only ctl0).2.1

/-- A kernel whose only bus node is that of bus 100000000. -/
def kernel_bus_1e8 : Kernel := { kernel0 with nodes := ["/dev/i2c-100000000".toList] }

/-! ## Facts about the C library model -/

theorem digitChar_ne_NUL : ∀ d, d < 10 → Nat.digitChar d ≠ NUL := by
  decide

theorem toDigitsCore_no_NUL (fuel : Nat) : ∀ (n : Nat) (ds : List Char),
    (∀ c ∈ ds, c ≠ NUL) → ∀ c ∈ Nat.toDigitsCore 10 fuel n ds, c ≠ NUL := by
  induction fuel with
  | zero => intro n ds h; simpa [Nat.toDigitsCore] using h
  | succ fuel ih =>
    intro n ds h
    have hcons : ∀ c ∈ Nat.digitChar (n % 10) :: ds, c ≠ NUL := by
      intro c hc
      rcases List.mem_cons.mp hc with rfl | hc
      · exact digitChar_ne_NUL _ (Nat.mod_lt _ (by decide))
      · exact h c hc
    simp only [Nat.toDigitsCore]
    split_ifs
    · exact hcons
    · exact ih _ _ hcons

theorem toDigits_no_NUL (n : Nat) : ∀ c ∈ Nat.toDigits 10 n, c ≠ NUL :=
  toDigitsCore_no_NUL _ _ _ (by simp)

theorem fmt_d_no_NUL (i : Int) : ∀ c ∈ fmt_d i, c ≠ NUL := by
  cases i with
  | ofNat n => exact toDigits_no_NUL n
  | negSucc n =>
    intro c hc
    rcases List.mem_cons.mp hc with rfl | hc
    · decide
    · exact toDigits_no_NUL _ c hc

theorem fmt_dev_i2c_no_NUL (i : Int) : ∀ c ∈ fmt_dev_i2c i, c ≠ NUL := by
  intro c hc
  rcases List.mem_append.mp hc with hc | hc
  · have hp : ∀ c ∈ "/dev/i2c-".toList, c ≠ NUL := by decide
    exact hp c hc
  · exact fmt_d_no_NUL i c hc

theorem cstr_terminated (xs rest : List Char) (h : ∀ c ∈ xs, c ≠ NUL) :
    cstr (xs ++ NUL :: rest) = xs := by
  induction xs with
  | nil => simp [cstr, List.takeWhile]
  | cons x xs ih =>
    have hx : x ≠ NUL := h x (List.mem_cons_self _ _)
    have ih2 := ih (fun c hc => h c (List.mem_cons_of_mem _ hc))
    have hb : (x != NUL) = true := by simpa using hx
    simp only [cstr] at ih2 ⊢
    simp [List.takeWhile_cons, hb, ih2]

/-- The C string `snprintf` leaves in a buffer is the first `size - 1`
characters of the output, whatever the buffer held. -/
theorem cstr_snprintf (buf : List Char) (size : Nat) (out : List Char) (hs : size ≠ 0)
    (h : ∀ c ∈ out, c ≠ NUL) : cstr (snprintf buf size out).buf = out.take (size - 1) := by
  simp only [snprintf, hs, if_false, List.append_assoc, List.singleton_append]
  exact cstr_terminated _ _ (fun c hc => h c (List.mem_of_mem_take hc))

theorem i2c_open_filename_cstr (filename : List Char) (i2c_port : Int) :
    cstr (i2c_open_filename filename i2c_port).buf = (fmt_dev_i2c i2c_port).take 18 :=
  cstr_snprintf filename 19 _ (by decide) (fmt_dev_i2c_no_NUL i2c_port)

theorem i2c_open_filename_stored (filename : List Char) (i2c_port : Int) :
    (i2c_open_filename filename i2c_port).stored
      = min 18 (fmt_dev_i2c i2c_port).length + 1 := by
  simp [i2c_open_filename, snprintf]

theorem toDigits_length_le (n e : Nat) (he : 0 < e) (h : n < 10 ^ e) :
    (Nat.toDigits 10 n).length ≤ e :=
  Nat.toDigitsCore_length 10 (by decide) (n + 1) n e h he

/-! ## Device-node path (`i2c_open`) -/

/-- The path `i2c_open` hands to `open` is the first 18 characters of the
formatted name. -/
theorem i2c_open_path {σ : Type} (os : OS σ) (s : σ) (i2c_port : Int) :
    i2c_open os s i2c_port = os.sys_open s ((fmt_dev_i2c i2c_port).take 18) O_RDWR := by
  simp only [i2c_open, i2c_open_filename_cstr]

/-- For ports 0 .. 999999999 `i2c_open` opens exactly `/dev/i2c-<port>`. -/
theorem i2c_open_exact_below_1e9 {σ : Type} (os : OS σ) (s : σ) (P : Nat)
    (hP : P < 10 ^ 9) :
    i2c_open os s (P : Int) = os.sys_open s ("/dev/i2c-".toList ++ Nat.toDigits 10 P) O_RDWR := by
  rw [i2c_open_path]
  have hlen : (fmt_dev_i2c (P : Int)).length ≤ 18 := by
    have h := toDigits_length_le P 9 (by decide) hP
    have h9 : "/dev/i2c-".toList.length = 9 := by decide
    show ("/dev/i2c-".toList ++ Nat.toDigits 10 P).length ≤ 18
    rw [List.length_append, h9]; omega
  rw [List.take_of_length_le hlen]
  rfl

/-- C1 (failing input): for port 1000000000 the formatted name has 19
characters and `snprintf(filename, 19, ...)` keeps 18 of them, so the path
handed to `open` is `/dev/i2c-100000000`, not `/dev/i2c-1000000000`; on a
system where only bus 100000000 exists the call opens that bus. -/
theorem i2c_open_truncates_ten_digit_port :
    fmt_dev_i2c 1000000000 = "/dev/i2c-1000000000".toList ∧
    cstr (i2c_open_filename (char_array 20) 1000000000).buf = "/dev/i2c-100000000".toList ∧
    cstr (i2c_open_filename (char_array 20) 1000000000).buf ≠ fmt_dev_i2c 1000000000 ∧
    (i2c_open linux kernel_bus_1e8 1000000000).2 = 3 ∧
    i2c_open linux kernel_bus_1e8 1000000000 = i2c_open linux kernel_bus_1e8 100000000 := by
  decide

/-- C10: for every port, negative ones included, and whatever the 20-byte
array `filename` held before, `snprintf(filename, 19, "/dev/i2c-%d", port)`
stores at most 19 bytes (at most 18 characters and the terminating NUL), all
inside the array, leaves the bytes after them untouched, and the string it
leaves is a prefix of `/dev/i2c-` followed by the decimal rendering of the
port. -/
theorem i2c_open_filename_in_bounds (filename : List Char) (i2c_port : Int)
    (hcap : filename.length = 20) :
    (i2c_open_filename filename i2c_port).stored ≤ 19 ∧
    (i2c_open_filename filename i2c_port).stored ≤ filename.length ∧
    (i2c_open_filename filename i2c_port).buf.length = 20 ∧
    (i2c_open_filename filename i2c_port).buf.drop (i2c_open_filename filename i2c_port).stored
      = filename.drop (i2c_open_filename filename i2c_port).stored ∧
    (cstr (i2c_open_filename filename i2c_port).buf).length + 1
      = (i2c_open_filename filename i2c_port).stored ∧
    (cstr (i2c_open_filename filename i2c_port).buf).length ≤ 18 ∧
    cstr (i2c_open_filename filename i2c_port).buf <+: "/dev/i2c-".toList ++ fmt_d i2c_port := by
  have hst := i2c_open_filename_stored filename i2c_port
  have hc := i2c_open_filename_cstr filename i2c_port
  have hlen : (cstr (i2c_open_filename filename i2c_port).buf).length
      = min 18 (fmt_dev_i2c i2c_port).length := by
    rw [hc, List.length_take]
  refine ⟨by omega, by omega, ?_, ?_, by omega, by omega, ?_⟩
  · simp only [i2c_open_filename, snprintf]
    simp [List.length_take, hcap]
    omega
  · simp only [i2c_open_filename, snprintf]
    simp only [Nat.reduceEqDiff, if_false]
    exact List.drop_left' rfl
  · rw [hc]
    exact List.take_prefix _ _

/-- C10 at port -2147483648 and an array of twenty `x`: 19 bytes are stored
and the string is `/dev/i2c--21474836`. -/
theorem i2c_open_filename_in_bounds_witness :
    (i2c_open_filename (List.replicate 20 'x') (-2147483648)).stored ≤ 19 ∧
    (i2c_open_filename (List.replicate 20 'x') (-2147483648)).buf
      = "/dev/i2c--21474836".toList ++ [NUL, 'x'] ∧
    cstr (i2c_open_filename (List.replicate 20 'x') (-2147483648)).buf
      <+: "/dev/i2c-".toList ++ fmt_d (-2147483648) :=
  ⟨(i2c_open_filename_in_bounds (List.replicate 20 'x') (-2147483648) (by decide)).1,
   by decide,
   (i2c_open_filename_in_bounds (List.replicate 20 'x') (-2147483648) (by decide)).2.2.2.2.2.2⟩

/-! ## `i2c_init`, `i2c_release`, `i2c_select_slave` over any system -/

/-- C2: whatever `open` returns, `i2c_init` stores that value in `port_fd`
(the other fields stay), and returns 0 exactly when the value is not
negative; a negative value is stored and returned as the failure result. -/
theorem i2c_init_stores_then_checks {σ : Type} (os : OS σ) (s : σ) (c : i2c_ctl) :
    (i2c_init os s c).1 = (i2c_open os s c.port).1 ∧
    (i2c_init os s c).2.1 = { c with port_fd := (i2c_open os s c.port).2 } ∧
    ((i2c_init os s c).2.2 = 0 ↔ 0 ≤ (i2c_open os s c.port).2) ∧
    ((i2c_open os s c.port).2 < 0 →
      (i2c_init os s c).2.1.port_fd < 0 ∧ (i2c_init os s c).2.2 ≠ 0 ∧
      (i2c_init os s c).2.2 = (i2c_open os s c.port).2) := by
  have hret : (i2c_init os s c).2.2
      = if (i2c_open os s c.port).2 < 0 then (i2c_open os s c.port).2 else 0 := rfl
  have hfd : (i2c_init os s c).2.1.port_fd = (i2c_open os s c.port).2 := rfl
  refine ⟨rfl, rfl, ?_, ?_⟩
  · rw [hret]; split_ifs with h <;> omega
  · intro h
    rw [hret, hfd, if_pos h]
    omega

/-- C3: `i2c_select_slave` returns 0 when the `I2C_SLAVE` request returns a
value that is not negative, and the negated `errno` of the state the request
left when it returns a negative one. -/
theorem i2c_select_slave_result {σ : Type} (os : OS σ) (s : σ) (c : i2c_ctl) :
    (i2c_select_slave os s c).1 = (os.ioctl_I2C_SLAVE s c.port_fd c.slave_address).1 ∧
    (0 ≤ (os.ioctl_I2C_SLAVE s c.port_fd c.slave_address).2 →
      (i2c_select_slave os s c).2 = 0) ∧
    ((os.ioctl_I2C_SLAVE s c.port_fd c.slave_address).2 < 0 →
      (i2c_select_slave os s c).2
        = - os.errno (os.ioctl_I2C_SLAVE s c.port_fd c.slave_address).1) := by
  have hdef : i2c_select_slave os s c
      = if (os.ioctl_I2C_SLAVE s c.port_fd c.slave_address).2 < 0
        then ((os.ioctl_I2C_SLAVE s c.port_fd c.slave_address).1,
              - os.errno (os.ioctl_I2C_SLAVE s c.port_fd c.slave_address).1)
        else ((os.ioctl_I2C_SLAVE s c.port_fd c.slave_address).1, 0) := rfl
  by_cases h : (os.ioctl_I2C_SLAVE s c.port_fd c.slave_address).2 < 0
  · rw [hdef, if_pos h]
    exact ⟨rfl, fun h0 => absurd h (not_lt.mpr h0), fun _ => rfl⟩
  · rw [hdef, if_neg h]
    exact ⟨rfl, fun _ => rfl, fun h1 => absurd h1 h⟩

/-- C6: `i2c_release` is `close` on the stored `port_fd`: it leaves the
system as that call leaves it, returns what that call returns, and the
controller record is the same afterwards, whatever the result. -/
theorem i2c_release_is_close {σ : Type} (os : OS σ) (s : σ) (c : i2c_ctl) :
    (i2c_release os s c).1 = (os.sys_close s c.port_fd).1 ∧
    (i2c_release os s c).2.2 = (os.sys_close s c.port_fd).2 ∧
    (i2c_release os s c).2.1 = c ∧
    (i2c_release os s c).2.1.port = c.port ∧
    (i2c_release os s c).2.1.port_fd = c.port_fd ∧
    (i2c_release os s c).2.1.slave_address = c.slave_address :=
  ⟨rfl, rfl, rfl, rfl, rfl, rfl⟩

/-! ## `i2c_read` -/

/-- C4: `i2c_read` returns the byte the transfer delivered, a value
0 .. 255, when the `I2C_SMBUS` request returns 0, and -1 when the request
returns anything else; so its result is always in 0 .. 255 or is -1. -/
theorem i2c_read_result {σ : Type} (os : OS σ) (s : σ) (c : i2c_ctl) (reg : Nat) :
    ((os.ioctl_I2C_SMBUS s c.port_fd
        ⟨I2C_SMBUS_READ, reg, I2C_SMBUS_BYTE_DATA, []⟩).2.1 = 0 →
      0 ≤ (i2c_read os s c reg).2 ∧ (i2c_read os s c reg).2 ≤ 255) ∧
    ((os.ioctl_I2C_SMBUS s c.port_fd
        ⟨I2C_SMBUS_READ, reg, I2C_SMBUS_BYTE_DATA, []⟩).2.1 ≠ 0 →
      (i2c_read os s c reg).2 = -1) ∧
    ((0 ≤ (i2c_read os s c reg).2 ∧ (i2c_read os s c reg).2 ≤ 255) ∨
      (i2c_read os s c reg).2 = -1) := by
  have hbyte : ∀ b : Nat, (0 : Int) ≤ ((0x0FF &&& b : Nat) : Int) ∧
      ((0x0FF &&& b : Nat) : Int) ≤ 255 := by
    intro b
    have h : 0x0FF &&& b ≤ 0x0FF := Nat.and_le_left
    omega
  have hdef : i2c_read os s c reg
      = if (os.ioctl_I2C_SMBUS s c.port_fd
            ⟨I2C_SMBUS_READ, reg, I2C_SMBUS_BYTE_DATA, []⟩).2.1 ≠ 0
        then ((os.ioctl_I2C_SMBUS s c.port_fd
            ⟨I2C_SMBUS_READ, reg, I2C_SMBUS_BYTE_DATA, []⟩).1, -1)
        else ((os.ioctl_I2C_SMBUS s c.port_fd
            ⟨I2C_SMBUS_READ, reg, I2C_SMBUS_BYTE_DATA, []⟩).1,
          ((0x0FF &&& (os.ioctl_I2C_SMBUS s c.port_fd
            ⟨I2C_SMBUS_READ, reg, I2C_SMBUS_BYTE_DATA, []⟩).2.2.byte : Nat) : Int)) := rfl
  by_cases h : (os.ioctl_I2C_SMBUS s c.port_fd
      ⟨I2C_SMBUS_READ, reg, I2C_SMBUS_BYTE_DATA, []⟩).2.1 = 0
  · rw [hdef, if_neg (not_not.mpr h)]
    exact ⟨fun _ => hbyte _, fun h1 => absurd h h1, Or.inl (hbyte _)⟩
  · rw [hdef, if_pos h]
    exact ⟨fun h1 => absurd h1 h, fun _ => rfl, Or.inr rfl⟩

/-! ## The descriptor table -/

theorem lowest_free_not_mem (fds : List Nat) : lowest_free fds ∉ fds := by
  unfold lowest_free
  cases h : (List.range (fds.length + 1)).find? (fun n => decide (n ∉ fds)) with
  | some n =>
    have hn := List.find?_some h
    simpa using hn
  | none =>
    rw [List.find?_eq_none] at h
    have hsub : List.range (fds.length + 1) ⊆ fds := by
      intro n hn
      have := h n hn
      simpa using this
    have hle := (List.subperm_of_subset (List.nodup_range _) hsub).length_le
    simp at hle

theorem not_live_neg_one (k : Kernel) : ¬ live k (-1) := by
  simp [live]

/-- What `i2c_init` does on the kernel model when the bus node exists. -/
theorem i2c_init_linux_found (k : Kernel) (c : i2c_ctl)
    (h : (fmt_dev_i2c c.port).take 18 ∈ k.nodes) :
    i2c_init linux k c
      = ({ k with fds := lowest_free k.fds :: k.fds },
         { c with port_fd := (lowest_free k.fds : Int) }, 0) := by
  have ho : i2c_open linux k c.port
      = ({ k with fds := lowest_free k.fds :: k.fds }, (lowest_free k.fds : Int)) := by
    rw [i2c_open_path]
    show kernel_open k ((fmt_dev_i2c c.port).take 18) O_RDWR = _
    simp [kernel_open, h]
  simp only [i2c_init, ho]
  have : ¬ ((lowest_free k.fds : Int) < 0) := by omega
  simp [this]

/-- What `i2c_init` does on the kernel model when the bus node is missing. -/
theorem i2c_init_linux_missing (k : Kernel) (c : i2c_ctl)
    (h : (fmt_dev_i2c c.port).take 18 ∉ k.nodes) :
    i2c_init linux k c = ({ k with errno := ENOENT }, { c with port_fd := -1 }, -1) := by
  have ho : i2c_open linux k c.port = ({ k with errno := ENOENT }, -1) := by
    rw [i2c_open_path]
    show kernel_open k ((fmt_dev_i2c c.port).take 18) O_RDWR = _
    simp [kernel_open, h]
  simp only [i2c_init, ho]
  simp

/-- What `i2c_release` does on the kernel model when the handle is open. -/
theorem i2c_release_linux_live (k : Kernel) (c : i2c_ctl) (h : live k c.port_fd) :
    i2c_release linux k c
      = ({ k with fds := k.fds.filter (fun n => n ≠ c.port_fd.toNat),
                  sel := k.sel.filter (fun e => e.1 ≠ c.port_fd.toNat) }, c, 0) := by
  show (match kernel_close k c.port_fd with | (s1, ret) => (s1, c, ret)) = _
  simp [kernel_close, h]

/-- What `i2c_release` does on the kernel model when the handle is not open. -/
theorem i2c_release_linux_stale (k : Kernel) (c : i2c_ctl) (h : ¬ live k c.port_fd) :
    i2c_release linux k c = ({ k with errno := EBADF }, c, -1) := by
  show (match kernel_close k c.port_fd with | (s1, ret) => (s1, c, ret)) = _
  simp [kernel_close, h]

/-! ## The handle invariant over sequences of `i2c_init` and `i2c_release` -/

theorem table_invariant_start (s : Sys) (h : unopened s) : table_invariant s.kernel.fds s :=
  ⟨h.1, fun _ hfd => hfd, fun _ hfd hn => absurd hfd hn, fun hl => absurd hl h.2⟩

theorem table_invariant_handle (base : List Nat) (s : Sys) (h : table_invariant base s) :
    handle_invariant base s := by
  refine ⟨?_, h.2.2.1⟩
  by_cases hl : live s.kernel s.ctl.port_fd
  · exact Or.inr (List.count_eq_one_of_mem h.1 hl.2)
  · exact Or.inl hl

theorem step_init_invariant (base : List Nat) (s : Sys) (h : table_invariant base s)
    (hn : ¬ live s.kernel s.ctl.port_fd) : table_invariant base (step s Call.init) := by
  obtain ⟨hnd, hbase, hown, _⟩ := h
  have hnone : ∀ fd ∈ s.kernel.fds, fd ∈ base := by
    intro fd hfd
    by_contra hb
    have heq := hown fd hfd hb
    exact hn ⟨by omega, by rw [← heq]; simpa using hfd⟩
  by_cases hp : (fmt_dev_i2c s.ctl.port).take 18 ∈ s.kernel.nodes
  · have hfree := lowest_free_not_mem s.kernel.fds
    simp only [step, i2c_init_linux_found _ _ hp, table_invariant]
    refine ⟨List.nodup_cons.mpr ⟨hfree, hnd⟩, ?_, ?_, ?_⟩
    · intro fd hfd
      exact List.mem_cons_of_mem _ (hbase fd hfd)
    · intro fd hfd hb
      rcases List.mem_cons.mp hfd with rfl | hfd
      · rfl
      · exact absurd (hnone fd hfd) hb
    · intro _ hb
      rw [Int.toNat_ofNat] at hb
      exact hfree (hbase _ hb)
  · simp only [step, i2c_init_linux_missing _ _ hp, table_invariant]
    refine ⟨hnd, hbase, ?_, ?_⟩
    · intro fd hfd hb
      exact absurd (hnone fd hfd) hb
    · intro hl
      exact absurd hl (not_live_neg_one _)

theorem step_release_invariant (base : List Nat) (s : Sys) (h : table_invariant base s) :
    table_invariant base (step s Call.release) := by
  obtain ⟨hnd, hbase, hown, hfd⟩ := h
  by_cases hl : live s.kernel s.ctl.port_fd
  · simp only [step, i2c_release_linux_live _ _ hl, table_invariant]
    refine ⟨hnd.filter _, ?_, ?_, ?_⟩
    · intro fd hb
      refine List.mem_filter.mpr ⟨hbase fd hb, ?_⟩
      have : fd ≠ s.ctl.port_fd.toNat := fun he => hfd hl (he ▸ hb)
      simpa using this
    · intro fd hmem hb
      exact hown fd (List.mem_filter.mp hmem).1 hb
    · intro hl2
      have hmem := hl2.2
      simp [List.mem_filter] at hmem
  · simp only [step, i2c_release_linux_stale _ _ hl, table_invariant]
    exact ⟨hnd, hbase, hown, fun hl2 => absurd hl2 hl⟩

theorem run_invariant (base : List Nat) (calls : List Call) : ∀ (s : Sys),
    table_invariant base s → disciplined s calls = true → table_invariant base (run s calls) := by
  induction calls with
  | nil => intro s h _; exact h
  | cons c cs ih =>
    intro s h hd
    cases c with
    | init =>
      simp only [disciplined, Bool.and_eq_true, decide_eq_true_eq] at hd
      exact ih _ (step_init_invariant base s h hd.1) hd.2
    | release =>
      simp only [disciplined] at hd
      exact ih _ (step_release_invariant base s h) hd

/-- C7 (as stated, at a concrete input): starting from an unopened
controller, two calls of `i2c_init` in a row both succeed, with handles 3
and 4; the controller holds 4, and descriptor 3, opened through the
controller, stays open without being the stored handle. -/
theorem reinit_leaks_first_handle :
    unopened ⟨kernel0, ctl0⟩ ∧
    (i2c_init linux kernel0 ctl0).2.2 = 0 ∧
    (i2c_init linux (i2c_init linux kernel0 ctl0).1 (i2c_init linux kernel0 ctl0).2.1).2.2 = 0 ∧
    (run ⟨kernel0, ctl0⟩ [Call.init, Call.init]).ctl.port_fd = 4 ∧
    (run ⟨kernel0, ctl0⟩ [Call.init, Call.init]).kernel.fds = [4, 3, 0, 1, 2] ∧
    ¬ handle_invariant kernel0.fds (run ⟨kernel0, ctl0⟩ [Call.init, Call.init]) := by
  decide

/-- C7 (amended): every sequence of `i2c_init` and `i2c_release` calls on a
controller that starts unopened, in which `i2c_init` is called only while the
stored handle is not an open descriptor, keeps the handle invariant: the
stored handle is not open or names exactly one open descriptor, no descriptor
opened through the controller is open without being the stored handle, and
the descriptors that were open at the start are all still open. -/
theorem handle_invariant_of_disciplined (s : Sys) (calls : List Call) (h0 : unopened s)
    (hd : disciplined s calls = true) :
    handle_invariant s.kernel.fds (run s calls) ∧
    (run s calls).kernel.fds.Nodup ∧
    (∀ fd ∈ s.kernel.fds, fd ∈ (run s calls).kernel.fds) :=
  have h := run_invariant s.kernel.fds calls s (table_invariant_start s h0) hd
  ⟨table_invariant_handle _ _ h, h.1, h.2.1⟩

/-- C7 (amended) on `kernel0`: init, release, init, release, release. -/
theorem handle_invariant_of_disciplined_witness :
    unopened ⟨kernel0, ctl0⟩ ∧
    disciplined ⟨kernel0, ctl0⟩
      [Call.init, Call.release, Call.init, Call.release, Call.release] = true ∧
    handle_invariant kernel0.fds
      (run ⟨kernel0, ctl0⟩ [Call.init, Call.release, Call.init, Call.release, Call.release]) :=
  ⟨by decide, by decide,
   (handle_invariant_of_disciplined ⟨kernel0, ctl0⟩
      [Call.init, Call.release, Call.init, Call.release, Call.release]
      (by decide) (by decide)).1⟩

/-! ## Use of a handle after `i2c_release` -/

/-- A successful `i2c_release` leaves the stored handle closed. -/
theorem i2c_release_closes (k : Kernel) (c : i2c_ctl) (h : (i2c_release linux k c).2.2 = 0) :
    ¬ live (i2c_release linux k c).1 c.port_fd := by
  by_cases hl : live k c.port_fd
  · rw [i2c_release_linux_live k c hl]
    intro hl2
    have hmem := hl2.2
    simp [List.mem_filter] at hmem
  · rw [i2c_release_linux_stale k c hl] at h
    simp at h

/-- While the stored handle is not an open descriptor every operation on
the controller reports an error: `i2c_release`, `i2c_read`, `i2c_write` and
`i2c_write_byte` return -1 and `i2c_select_slave` returns `-EBADF`. -/
theorem closed_handle_fails (k : Kernel) (c : i2c_ctl) (reg data len : Nat) (buffer : List Nat)
    (h : ¬ live k c.port_fd) :
    (i2c_release linux k c).2.2 = -1 ∧
    (i2c_select_slave linux k c).2 = -EBADF ∧
    (i2c_read linux k c reg).2 = -1 ∧
    (i2c_write linux k c reg buffer len).2 = -1 ∧
    (i2c_write_byte linux k c reg data).2 = -1 := by
  refine ⟨?_, ?_, ?_, ?_, ?_⟩
  · rw [i2c_release_linux_stale k c h]
  · show (match kernel_ioctl_slave k c.port_fd c.slave_address with
      | (s1, r) => if r < 0 then (s1, - linux.errno s1) else (s1, 0)).2 = -EBADF
    simp [kernel_ioctl_slave, h, linux]
  · simp [i2c_read, i2c_smbus_read_byte_data, i2c_smbus_access, linux, kernel_ioctl_smbus, h]
  · simp [i2c_write, i2c_smbus_write_i2c_block_data, i2c_smbus_access, linux,
      kernel_ioctl_smbus, h]
  · simp [i2c_write_byte, i2c_smbus_write_byte_data, i2c_smbus_access, linux,
      kernel_ioctl_smbus, h]

/-- C8 (failing input): `i2c_init` returns handle 3 and `i2c_release`
closes it; another part of the program then opens bus 2 and is given
descriptor 3 again. With the controller still holding 3 and no new
`i2c_init`, `i2c_select_slave` returns 0 and a second `i2c_release` returns
0 and closes the other owner's descriptor. -/
theorem stale_handle_reused_succeeds :
    after_init.2.2 = 0 ∧ after_init.2.1.port_fd = 3 ∧
    after_release.2.2 = 0 ∧ after_release.2.1.port_fd = 3 ∧
    ¬ live after_release.1 3 ∧
    after_other_open.2 = 3 ∧
    (i2c_select_slave linux after_other_open.1 after_release.2.1).2 = 0 ∧
    (i2c_release linux after_other_open.1 after_release.2.1).2.2 = 0 ∧
    ¬ live (i2c_release linux after_other_open.1 after_release.2.1).1 after_other_open.2 := by
  decide

/-! ## `i2c_write` and `i2c_write_byte` -/

/-- The result of `i2c_write` is the status of one `I2C_SMBUS` block-write
request whose block is the length (32 at most) followed by that many bytes
of the buffer. -/
theorem i2c_write_request {σ : Type} (os : OS σ) (s : σ) (c : i2c_ctl) (reg len : Nat)
    (buffer : List Nat) :
    i2c_write os s c reg buffer len
      = ((os.ioctl_I2C_SMBUS s c.port_fd
            ⟨I2C_SMBUS_WRITE, reg, I2C_SMBUS_I2C_BLOCK_BROKEN,
             min len 32 :: buffer.take (min len 32)⟩).1,
         (os.ioctl_I2C_SMBUS s c.port_fd
            ⟨I2C_SMBUS_WRITE, reg, I2C_SMBUS_I2C_BLOCK_BROKEN,
             min len 32 :: buffer.take (min len 32)⟩).2.1) := by
  have hmin : (if len > 32 then 32 else len) = min len 32 := by
    split_ifs <;> omega
  simp only [i2c_write, i2c_smbus_write_i2c_block_data, i2c_smbus_access, hmin]

/-- The result of `i2c_write_byte` is the status of one `I2C_SMBUS` byte-data
write request carrying the data byte. -/
theorem i2c_write_byte_request {σ : Type} (os : OS σ) (s : σ) (c : i2c_ctl) (reg data : Nat) :
    i2c_write_byte os s c reg data
      = ((os.ioctl_I2C_SMBUS s c.port_fd
            ⟨I2C_SMBUS_WRITE, reg, I2C_SMBUS_BYTE_DATA, [data]⟩).1,
         (os.ioctl_I2C_SMBUS s c.port_fd
            ⟨I2C_SMBUS_WRITE, reg, I2C_SMBUS_BYTE_DATA, [data]⟩).2.1) :=
  rfl

/-- On the kernel model `i2c_write` returns 0 or -1, whatever the length. -/
theorem i2c_write_linux_result (k : Kernel) (c : i2c_ctl) (reg len : Nat) (buffer : List Nat) :
    (i2c_write linux k c reg buffer len).2 = 0 ∨ (i2c_write linux k c reg buffer len).2 = -1 := by
  rw [i2c_write_request]
  show (kernel_ioctl_smbus k c.port_fd _).2.1 = 0 ∨ (kernel_ioctl_smbus k c.port_fd _).2.1 = -1
  unfold kernel_ioctl_smbus kernel_transfer
  split_ifs <;> simp

/-- C5 (failing input): with the controller opened and its slave selected,
`i2c_write` of the one byte 0x12 to register 0 succeeds (the register then
reads 0x12) and returns 0, not 1; two bytes also give 0, not 2; a write of
no bytes gives 0. -/
theorem i2c_write_returns_status_not_count :
    after_init.2.2 = 0 ∧ after_select.2 = 0 ∧
    (i2c_write linux after_select.1 after_init.2.1 0 [0x12] 1).2 = 0 ∧
    (i2c_read linux (i2c_write linux after_select.1 after_init.2.1 0 [0x12] 1).1
        after_init.2.1 0).2 = 0x12 ∧
    (i2c_write linux after_select.1 after_init.2.1 0 [0x12, 0x34] 2).2 = 0 ∧
    (i2c_read linux (i2c_write linux after_select.1 after_init.2.1 0 [0x12, 0x34] 2).1
        after_init.2.1 1).2 = 0x34 ∧
    (i2c_write linux after_select.1 after_init.2.1 0 [] 0).2 = 0 := by
  decide

/-- C9 (as stated, at a concrete input): on an adapter that implements
byte-data transfers only, with the controller opened and its slave selected,
`i2c_write_byte` of 0x12 to register 0 returns 0 and the register then reads
0x12, while `i2c_write` of the one-byte buffer holding 0x12 returns -1 and
leaves the register at 0. -/
theorem write_byte_is_not_write_of_one :
    byte_only_selected.2 = 0 ∧
    (i2c_write_byte linux byte_only_selected.1 { ctl0 with port_fd := 3 } 0 0x12).2 = 0 ∧
    (i2c_read linux
      (i2c_write_byte linux byte_only_selected.1 { ctl0 with port_fd := 3 } 0 0x12).1
      { ctl0 with port_fd := 3 } 0).2 = 0x12 ∧
    (i2c_write linux byte_only_selected.1 { ctl0 with port_fd := 3 } 0 [0x12] 1).2 = -1 ∧
    (i2c_read linux
      (i2c_write linux byte_only_selected.1 { ctl0 with port_fd := 3 } 0 [0x12] 1).1
      { ctl0 with port_fd := 3 } 0).2 = 0 ∧
    i2c_write_byte linux byte_only_selected.1 { ctl0 with port_fd := 3 } 0 0x12
      ≠ i2c_write linux byte_only_selected.1 { ctl0 with port_fd := 3 } 0 [0x12] 1 := by
  decide

/-- The two ways to write one byte each issue one `I2C_SMBUS` write request
on `port_fd` and return its status; `i2c_write_byte` asks for a byte-data
transfer of the byte, `i2c_write` for a block transfer of the length 1 and
the byte, so the requests are not the same. -/
theorem write_byte_and_write_requests {σ : Type} (os : OS σ) (s : σ) (c : i2c_ctl)
    (r d : Nat) :
    i2c_write_byte os s c r d
      = ((os.ioctl_I2C_SMBUS s c.port_fd
            ⟨I2C_SMBUS_WRITE, r, I2C_SMBUS_BYTE_DATA, [d]⟩).1,
         (os.ioctl_I2C_SMBUS s c.port_fd
            ⟨I2C_SMBUS_WRITE, r, I2C_SMBUS_BYTE_DATA, [d]⟩).2.1) ∧
    i2c_write os s c r [d] 1
      = ((os.ioctl_I2C_SMBUS s c.port_fd
            ⟨I2C_SMBUS_WRITE, r, I2C_SMBUS_I2C_BLOCK_BROKEN, [1, d]⟩).1,
         (os.ioctl_I2C_SMBUS s c.port_fd
            ⟨I2C_SMBUS_WRITE, r, I2C_SMBUS_I2C_BLOCK_BROKEN, [1, d]⟩).2.1) ∧
    (⟨I2C_SMBUS_WRITE, r, I2C_SMBUS_BYTE_DATA, [d]⟩ : i2c_smbus_ioctl_data)
      ≠ ⟨I2C_SMBUS_WRITE, r, I2C_SMBUS_I2C_BLOCK_BROKEN, [1, d]⟩ := by
  refine ⟨i2c_write_byte_request os s c r d, ?_, ?_⟩
  · rw [i2c_write_request]
    rfl
  · intro h
    have hsize : I2C_SMBUS_BYTE_DATA = I2C_SMBUS_I2C_BLOCK_BROKEN :=
      congrArg i2c_smbus_ioctl_data.size h
    exact absurd hsize (by decide)

/-- C9 (amended): on a bus adapter that implements both the byte-data and
the I2C block transfer, for every state of the kernel, controller `c`,
register `r` and byte `d`, `i2c_write_byte(c, r, d)` leaves the system in the
same state and returns the same result as `i2c_write(c, r, buffer, 1)` with a
one-element buffer holding `d`: both fail alike on a handle that is not open
or has no answering slave selected, and both store `d` in register `r` and
return 0 otherwise. -/
theorem write_byte_eq_write_when_both_supported (k : Kernel) (c : i2c_ctl) (r d : Nat)
    (hb : I2C_SMBUS_BYTE_DATA ∈ k.funcs) (hi : I2C_SMBUS_I2C_BLOCK_BROKEN ∈ k.funcs) :
    i2c_write_byte linux k c r d = i2c_write linux k c r [d] 1 := by
  rw [i2c_write_byte_request, i2c_write_request]
  show ((kernel_ioctl_smbus k c.port_fd _).1, (kernel_ioctl_smbus k c.port_fd _).2.1)
    = ((kernel_ioctl_smbus k c.port_fd _).1, (kernel_ioctl_smbus k c.port_fd _).2.1)
  have hb2 : 2 ∈ k.funcs := hb
  have hi6 : 6 ∈ k.funcs := hi
  unfold kernel_ioctl_smbus
  by_cases h1 : live k c.port_fd
  · by_cases h2 : k.sel.lookup c.port_fd.toNat = some k.slave
    · simp [h1, h2, hb2, hi6, kernel_transfer, I2C_SMBUS_WRITE, I2C_SMBUS_READ,
        I2C_SMBUS_BYTE_DATA, I2C_SMBUS_I2C_BLOCK_BROKEN, I2C_SMBUS_BLOCK_MAX,
        i2c_smbus_data.byte, reg_set_block]
    · simp [h1, h2, hb, hi]
  · simp [h1]

/-- C9 (amended) on `kernel0`, whose adapter implements both transfers, with
the controller opened and its slave selected: both calls return 0 and leave
0x12 in register 0. -/
theorem write_byte_eq_write_when_both_supported_witness :
    I2C_SMBUS_BYTE_DATA ∈ after_select.1.funcs ∧
    I2C_SMBUS_I2C_BLOCK_BROKEN ∈ after_select.1.funcs ∧
    (i2c_write_byte linux after_select.1 after_init.2.1 0 0x12).2 = 0 ∧
    (i2c_read linux (i2c_write_byte linux after_select.1 after_init.2.1 0 0x12).1
        after_init.2.1 0).2 = 0x12 ∧
    i2c_write_byte linux after_select.1 after_init.2.1 0 0x12
      = i2c_write linux after_select.1 after_init.2.1 0 [0x12] 1 :=
  ⟨by decide, by decide, by decide, by decide,
   write_byte_eq_write_when_both_supported after_select.1 after_init.2.1 0 0x12
     (by decide) (by decide)⟩

end I2C
